import Mathlib

/-!
Verification of the JSON-Schema inference and merge engine of
pytest-schema-snapshot.

The development shallowly embeds, from the Python sources:
  - the value model handled by the pipeline (PyValue: the JSON-compatible
    kinds plus an explicit constructor for unsupported runtime types),
  - the schema model RawSchema of src/typed_schemashot/schema_utils.py,
  - the merge function _merge_schemas, the inference function gen_schema and
    the serializer to_json_schema of that module,
  - the regex-based FormatDetector and the per-path format-annotation cache
    of pytest_jsonschema_snapshot/tools/genson_addon.

Lean 4.14 does not allow recursion through List/Option nesting, so the
recursive payloads of PyValue and RawSchema are inlined as mutually
inductive cons-lists; conversion views (toList/ofList) restore the
ordinary Dict/List reading used by every function, and each embedded
function reads exactly like its Python counterpart through those views.
Recursive functions take an explicit fuel argument strictly larger than
the recursion depth the Python code performs on the same input.

External library behaviour that the repository only calls (the jsonschema
validator) is modelled from the specification and clearly marked.
-/

/-- Error raised by the type classifier.  Models the ValueError raised by
_get_type_name for values outside the closed kind set (the specification
calls this condition UnsupportedType). -/
inductive SchemaError where
  | unsupportedType (typeName : String)
deriving DecidableEq, Repr

mutual
/-- A Python runtime value as seen by the pipeline: the JSON-compatible
kinds (null, bool, int, float, str, sequence, string-keyed mapping) plus
an opaque constructor for any other runtime type (for example a function),
carrying that type name.  Floats are opaque: the code only ever inspects
their runtime type, never their numeric value. -/
inductive PyValue where
  | null
  | bool (b : Bool)
  | int (n : Int)
  | num (payload : Int)
  | str (s : String)
  | arr (elems : PyList)
  | obj (entries : PyDict)
  | other (typeName : String)
  deriving DecidableEq, Repr
/-- A Python list of values (inlined cons-list). -/
inductive PyList where
  | nil
  | cons (hd : PyValue) (tl : PyList)
  deriving DecidableEq, Repr
/-- A Python dict with string keys (inlined cons-list; insertion order,
unique keys). -/
inductive PyDict where
  | nil
  | cons (key : String) (val : PyValue) (tl : PyDict)
  deriving DecidableEq, Repr
end

/-- View of a PyList as an ordinary list. -/
def PyList.toList : PyList → List PyValue
  | .nil => []
  | .cons v tl => v :: tl.toList

/-- Build a PyList from an ordinary list. -/
def PyList.ofList : List PyValue → PyList
  | [] => .nil
  | v :: tl => .cons v (PyList.ofList tl)

/-- View of a PyDict as an association list. -/
def PyDict.toList : PyDict → List (String × PyValue)
  | .nil => []
  | .cons k v tl => (k, v) :: tl.toList

/-- Build a PyDict from an association list. -/
def PyDict.ofList : List (String × PyValue) → PyDict
  | [] => .nil
  | (k, v) :: tl => .cons k v (PyDict.ofList tl)

mutual
/-- Structural size of a value; an upper bound on the recursion depth of
every Python function walking the value, used to provision fuel. -/
def PyValue.size : PyValue → Nat
  | .null | .bool _ | .int _ | .num _ | .str _ | .other _ => 1
  | .arr elems => 1 + elems.size
  | .obj entries => 1 + entries.size
/-- Size of a PyList. -/
def PyList.size : PyList → Nat
  | .nil => 1
  | .cons v tl => 1 + v.size + tl.size
/-- Size of a PyDict. -/
def PyDict.size : PyDict → Nat
  | .nil => 1
  | .cons _ v tl => 1 + v.size + tl.size
end

/-- Whether a value is a Python str. -/
def PyValue.isStr : PyValue → Bool
  | .str _ => true
  | _ => false

/-- Modelled from the spec: the mapping cfg.type_map (the module
typed_schemashot.cfg is absent from the sources; only schema_utils.py
imports it).  The spec fixes the closed kind set and the repository tests
pin each mapping: None to null, bool to boolean, int to integer, float to
number, str to string, list to array, dict to object; the ordered
isinstance scan of _get_type_name then raises ValueError for any other
runtime type.  Our constructors are disjoint, so the scan is a total
match; the raise is the error case. -/
def get_type_name : PyValue → Except SchemaError String
  | .null => .ok "null"
  | .bool _ => .ok "boolean"
  | .int _ => .ok "integer"
  | .num _ => .ok "number"
  | .str _ => .ok "string"
  | .arr _ => .ok "array"
  | .obj _ => .ok "object"
  | .other t => .error (.unsupportedType t)

mutual
/-- The RawSchema dataclass of schema_utils.py: type_names is a list of
kind names; properties an optional dict from key to child schema; items
an optional list of child schemas; required an optional list of keys;
format an optional tag.  All optional fields default to None. -/
inductive RawSchema where
  | mk (type_names : List String) (properties : PropsField) (items : ItemsField)
       (required : Option (List String)) (format : Option String)
  deriving DecidableEq, Repr
/-- The Optional[Dict[str, RawSchema]] payload of the properties field. -/
inductive PropsField where
  | none
  | dict (entries : PropList)
  deriving DecidableEq, Repr
/-- Entries of a properties dict (insertion order, unique keys). -/
inductive PropList where
  | nil
  | cons (key : String) (val : RawSchema) (tl : PropList)
  deriving DecidableEq, Repr
/-- The Optional[List[RawSchema]] payload of the items field. -/
inductive ItemsField where
  | none
  | list (entries : ItemList)
  deriving DecidableEq, Repr
/-- Entries of an items list. -/
inductive ItemList where
  | nil
  | cons (hd : RawSchema) (tl : ItemList)
  deriving DecidableEq, Repr
end

/-- View of a PropList as an association list. -/
def PropList.toList : PropList → List (String × RawSchema)
  | .nil => []
  | .cons k v tl => (k, v) :: tl.toList

/-- Build a PropList from an association list. -/
def PropList.ofList : List (String × RawSchema) → PropList
  | [] => .nil
  | (k, v) :: tl => .cons k v (PropList.ofList tl)

/-- View of an ItemList as a list. -/
def ItemList.toList : ItemList → List RawSchema
  | .nil => []
  | .cons v tl => v :: tl.toList

/-- Build an ItemList from a list. -/
def ItemList.ofList : List RawSchema → ItemList
  | [] => .nil
  | v :: tl => .cons v (ItemList.ofList tl)

/-- View of a PropsField as the Optional[Dict] it encodes. -/
def PropsField.toOpt : PropsField → Option (List (String × RawSchema))
  | .none => Option.none
  | .dict e => some e.toList

/-- Build a PropsField from an Optional[Dict]. -/
def PropsField.ofOpt : Option (List (String × RawSchema)) → PropsField
  | Option.none => .none
  | some l => .dict (PropList.ofList l)

/-- View of an ItemsField as the Optional[List] it encodes. -/
def ItemsField.toOpt : ItemsField → Option (List RawSchema)
  | .none => Option.none
  | .list e => some e.toList

/-- Build an ItemsField from an Optional[List]. -/
def ItemsField.ofOpt : Option (List RawSchema) → ItemsField
  | Option.none => .none
  | some l => .list (ItemList.ofList l)

/-- Field accessor: type_names. -/
def RawSchema.type_names : RawSchema → List String
  | .mk tn _ _ _ _ => tn

/-- Field accessor: properties, as the Optional[Dict] view. -/
def RawSchema.properties : RawSchema → Option (List (String × RawSchema))
  | .mk _ p _ _ _ => p.toOpt

/-- Field accessor: items, as the Optional[List] view. -/
def RawSchema.items : RawSchema → Option (List RawSchema)
  | .mk _ _ i _ _ => i.toOpt

/-- Field accessor: required. -/
def RawSchema.required : RawSchema → Option (List String)
  | .mk _ _ _ r _ => r

/-- Field accessor: format. -/
def RawSchema.format : RawSchema → Option String
  | .mk _ _ _ _ f => f

/-- Constructor taking the ordinary Option/List views of all fields. -/
def RawSchema.make (tn : List String) (props : Option (List (String × RawSchema)))
    (items : Option (List RawSchema)) (req : Option (List String)) (fmt : Option String) :
    RawSchema :=
  .mk tn (PropsField.ofOpt props) (ItemsField.ofOpt items) req fmt

mutual
/-- Structural size of a schema; an upper bound on the recursion depth of
the Python functions walking it, used to provision fuel. -/
def RawSchema.size : RawSchema → Nat
  | .mk _ p i _ _ => 1 + p.size + i.size
/-- Size of a PropsField. -/
def PropsField.size : PropsField → Nat
  | .none => 1
  | .dict e => 1 + e.size
/-- Size of a PropList. -/
def PropList.size : PropList → Nat
  | .nil => 1
  | .cons _ v tl => 1 + v.size + tl.size
/-- Size of an ItemsField. -/
def ItemsField.size : ItemsField → Nat
  | .none => 1
  | .list e => 1 + e.size
/-- Size of an ItemList. -/
def ItemList.size : ItemList → Nat
  | .nil => 1
  | .cons v tl => 1 + v.size + tl.size
end

/-- The required keys of a schema, as the set they denote (an absent
required field denotes the empty set, exactly as the code reads it). -/
def RawSchema.requiredKeys (r : RawSchema) : List String :=
  r.required.getD []

/-- The property keys of a schema (absent properties denote none). -/
def RawSchema.propKeys (r : RawSchema) : List String :=
  (r.properties.getD []).map Prod.fst

/-- Python dict.get on an association list (every dict the code builds
has unique keys, so first-match lookup coincides with dict lookup). -/
def dictGet (k : String) : List (String × RawSchema) → Option RawSchema
  | [] => Option.none
  | (k2, v) :: rest => if k2 = k then some v else dictGet k rest

/-- Worker for dedupFirst, carrying the keys already emitted. -/
def dedupFirstGo (seen : List String) : List String → List String
  | [] => []
  | x :: xs => if x ∈ seen then dedupFirstGo seen xs else x :: dedupFirstGo (x :: seen) xs

/-- First-occurrence deduplication: the semantics of the Python idiom
list(dict.fromkeys(..)) used by _merge_schemas for type_names, and of the
key-set union of the two property dicts (Python iterates that union as a
set whose order is unspecified; every claim below is order-insensitive,
and first-occurrence order is fixed here). -/
def dedupFirst (l : List String) : List String :=
  dedupFirstGo [] l

/-- Insert a string into a sorted list, ordering as Python sorted on
strings (lexicographic over character code points). -/
def insertSorted (x : String) : List String → List String
  | [] => [x]
  | y :: ys => if x < y then x :: y :: ys else y :: insertSorted x ys

/-- Python sorted on a list of strings (insertion sort; the keys sorted
by the code are distinct, so stability is irrelevant). -/
def sortStrings : List String → List String
  | [] => []
  | x :: xs => insertSorted x (sortStrings xs)

/-- The merged required list of _merge_schemas: the keys of the union of
both property dicts that are present in both, sorted (Python appends
them while iterating all_keys and sorts at the end; the result is the
same sorted list either way). -/
def mergeRequiredList (a b : RawSchema) : List String :=
  sortStrings
    ((dedupFirst ((a.properties.getD []).map Prod.fst ++ (b.properties.getD []).map Prod.fst)).filter
      (fun k => (dictGet k (a.properties.getD [])).isSome && (dictGet k (b.properties.getD [])).isSome))

/-- Fuelled embedding of _merge_schemas of schema_utils.py.  Mirrors the
source: type_names are concatenated and first-occurrence-deduplicated;
when object is among the merged type names, properties become the union
of both dicts with shared keys merged recursively and one-sided keys
carried unchanged, and required becomes the sorted list of shared keys
(None when empty, matching sorted(..) or None); when array is among the
merged type names, both items lists are concatenated and left-folded by
the merge itself into at most one element (an empty concatenation leaves
an empty items list, matching [combined] if combined else []).  Format is
never set by the merge.  The fuel-0 value is never reached at the fuel
supplied by merge_schemas. -/
def merge_schemasF : Nat → RawSchema → RawSchema → RawSchema
  | 0, a, b => RawSchema.make (dedupFirst (a.type_names ++ b.type_names))
      Option.none Option.none Option.none Option.none
  | fuel + 1, a, b =>
    let tn := dedupFirst (a.type_names ++ b.type_names)
    let pa := a.properties.getD []
    let pb := b.properties.getD []
    let allKeys := dedupFirst (pa.map Prod.fst ++ pb.map Prod.fst)
    let props : Option (List (String × RawSchema)) :=
      if "object" ∈ tn then
        some (allKeys.map (fun k =>
          match dictGet k pa, dictGet k pb with
          | some x, some y => (k, merge_schemasF fuel x y)
          | some x, Option.none => (k, x)
          | Option.none, some y => (k, y)
          | Option.none, Option.none => (k, RawSchema.make [] Option.none Option.none Option.none Option.none)))
      else Option.none
    let req : Option (List String) :=
      if "object" ∈ tn then
        let r := mergeRequiredList a b
        if r.isEmpty then Option.none else some r
      else Option.none
    let items : Option (List RawSchema) :=
      if "array" ∈ tn then
        match a.items.getD [] ++ b.items.getD [] with
        | [] => some []
        | x :: xs => some [xs.foldl (merge_schemasF fuel) x]
      else Option.none
    RawSchema.make tn props items req Option.none

/-- The function _merge_schemas of schema_utils.py.  The supplied fuel strictly
exceeds the recursion depth the Python function performs on these inputs
(each recursive call descends into strictly shallower trees, and merging
never deepens a tree), so the fuelled body is the computation the source
executes. -/
def merge_schemas (a b : RawSchema) : RawSchema :=
  merge_schemasF (a.size + b.size + 1) a b

/-- ASCII letter, the regex class [a-zA-Z]. -/
def isAsciiAlpha (c : Char) : Bool :=
  (Char.ofNat 97 ≤ c && c ≤ Char.ofNat 122) || (Char.ofNat 65 ≤ c && c ≤ Char.ofNat 90)

/-- ASCII digit, the regex class [0-9] (the patterns below are matched
over ASCII; the Unicode-digit latitude of Python re never yields a
different format tag for the inputs any claim touches). -/
def isAsciiDigit (c : Char) : Bool :=
  c.isDigit

/-- Whitespace of the regex class backslash-s: space, tab, newline,
carriage return, vertical tab, form feed. -/
def isReSpace (c : Char) : Bool :=
  c = ' ' || c = '\t' || c = '\n' || c = '\r' || c = Char.ofNat 11 || c = Char.ofNat 12

/-- Hexadecimal digit, the class [0-9a-f] under re.I. -/
def isHexIChar (c : Char) : Bool :=
  isAsciiDigit c || (Char.ofNat 97 ≤ c && c ≤ Char.ofNat 102) || (Char.ofNat 65 ≤ c && c ≤ Char.ofNat 70)

/-- Split a character list on a separator (like str.split). -/
def splitOnChar (sep : Char) : List Char → List (List Char)
  | [] => [[]]
  | c :: rest =>
    match splitOnChar sep rest with
    | [] => if c = sep then [[], []] else [[c]]
    | h :: t => if c = sep then [] :: h :: t else (c :: h) :: t

/-- Anchored regex matching with the semantics of a Python pattern
ending in a dollar: the body must consume the whole string, or the whole
string minus one final newline (Python dollar also matches just before a
terminating newline). -/
def reMatchDollar (core : List Char → Bool) (s : String) : Bool :=
  let cs := s.data
  core cs ||
    (match cs.getLast? with
     | some c => if c = '\n' then core cs.dropLast else false
     | Option.none => false)

/-- Character class of the local part of EMAIL_PATTERN:
[a-zA-Z0-9._%+-]. -/
def emailLocalChar (c : Char) : Bool :=
  isAsciiAlpha c || isAsciiDigit c || c = '.' || c = '_' || c = '%' || c = '+' || c = '-'

/-- Character class of the domain part of EMAIL_PATTERN: [a-zA-Z0-9.-]. -/
def emailDomainChar (c : Char) : Bool :=
  isAsciiAlpha c || isAsciiDigit c || c = '.' || c = '-'

/-- Body of EMAIL_PATTERN: [a-zA-Z0-9._%+-]+ at [a-zA-Z0-9.-]+ dot
[a-zA-Z]{2,}.  Neither class contains the at sign, so a match has exactly
one at sign; the domain split on the final literal dot is searched over
all positions, which is exactly the backtracking semantics. -/
def emailCore (cs : List Char) : Bool :=
  match splitOnChar '@' cs with
  | [loc, dom] =>
    !loc.isEmpty && loc.all emailLocalChar &&
      (List.range dom.length).any (fun i =>
        dom.get? i = some '.' && 1 ≤ i && (dom.take i).all emailDomainChar &&
          (let tld := dom.drop (i + 1)
           2 ≤ tld.length && tld.all isAsciiAlpha))
  | _ => false

/-- Body of UUID_PATTERN (case-insensitive): 8-4-4-4-12 hex digits with
hyphens, version digit [1-5] at index 14, variant [89ab] at index 19. -/
def uuidCore (cs : List Char) : Bool :=
  cs.length = 36 &&
    (List.range 36).all (fun i =>
      match cs.get? i with
      | Option.none => false
      | some c =>
        if i = 8 || i = 13 || i = 18 || i = 23 then c = '-'
        else if i = 14 then '1' ≤ c && c ≤ '5'
        else if i = 19 then c = '8' || c = '9' || c = 'a' || c = 'b' || c = 'A' || c = 'B'
        else isHexIChar c)

/-- Body of DATE_PATTERN: four digits, hyphen, two digits, hyphen, two
digits (no calendar validation: this is a pure character pattern). -/
def dateCore (cs : List Char) : Bool :=
  cs.length = 10 &&
    (List.range 10).all (fun i =>
      match cs.get? i with
      | Option.none => false
      | some c => if i = 4 || i = 7 then c = '-' else isAsciiDigit c)

/-- Timezone tail of DATETIME_PATTERN: Z, or a sign followed by two
digits, colon, two digits. -/
def datetimeTzTail (cs : List Char) : Bool :=
  match cs with
  | ['Z'] => true
  | [sgn, h1, h2, ':', m1, m2] =>
    (sgn = '+' || sgn = '-') && isAsciiDigit h1 && isAsciiDigit h2 && isAsciiDigit m1 && isAsciiDigit m2
  | _ => false

/-- Body of DATETIME_PATTERN: date part, T, time part, optional dot plus
digits, then the timezone tail.  The optional fraction is deterministic:
a digit can never begin the timezone tail. -/
def datetimeCore (cs : List Char) : Bool :=
  20 ≤ cs.length &&
    (List.range 19).all (fun i =>
      match cs.get? i with
      | Option.none => false
      | some c =>
        if i = 4 || i = 7 then c = '-'
        else if i = 10 then c = 'T'
        else if i = 13 || i = 16 then c = ':'
        else isAsciiDigit c) &&
    (match cs.drop 19 with
     | '.' :: more =>
       let digs := more.takeWhile isAsciiDigit
       !digs.isEmpty && datetimeTzTail (more.drop digs.length)
     | rest => datetimeTzTail rest)

/-- Body of URI_PATTERN (case-insensitive): http or https, colon slash
slash, one character outside whitespace and /$.?#, one character other
than newline, then any non-whitespace characters to the end. -/
def uriCore (cs : List Char) : Bool :=
  let lower := cs.map Char.toLower
  let rest :=
    if lower.take 8 = "https://".data then some (cs.drop 8)
    else if lower.take 7 = "http://".data then some (cs.drop 7)
    else Option.none
  match rest with
  | some (c1 :: c2 :: more) =>
    !(isReSpace c1 || c1 = '/' || c1 = '$' || c1 = '.' || c1 = '?' || c1 = '#') &&
      c2 ≠ '\n' && more.all (fun c => !isReSpace c)
  | _ => false

/-- One dotted-quad octet of IPV4_PATTERN: 25[0-5], or 2[0-4][0-9], or
[01]?[0-9][0-9]? (any one or two digits, or three digits starting 0/1). -/
def ipv4Octet (p : List Char) : Bool :=
  match p with
  | [a] => isAsciiDigit a
  | [a, b] => isAsciiDigit a && isAsciiDigit b
  | [a, b, c] =>
    (a = '2' && b = '5' && '0' ≤ c && c ≤ '5') ||
    (a = '2' && '0' ≤ b && b ≤ '4' && isAsciiDigit c) ||
    ((a = '0' || a = '1') && isAsciiDigit b && isAsciiDigit c)
  | _ => false

/-- Body of IPV4_PATTERN: four octets separated by literal dots. -/
def ipv4Core (cs : List Char) : Bool :=
  match splitOnChar '.' cs with
  | [a, b, c, d] => ipv4Octet a && ipv4Octet b && ipv4Octet c && ipv4Octet d
  | _ => false

/-- EMAIL_PATTERN of FormatDetector, as a total match predicate. -/
def FormatDetector.EMAIL_PATTERN (s : String) : Bool := reMatchDollar emailCore s

/-- UUID_PATTERN of FormatDetector. -/
def FormatDetector.UUID_PATTERN (s : String) : Bool := reMatchDollar uuidCore s

/-- DATETIME_PATTERN of FormatDetector. -/
def FormatDetector.DATETIME_PATTERN (s : String) : Bool := reMatchDollar datetimeCore s

/-- DATE_PATTERN of FormatDetector. -/
def FormatDetector.DATE_PATTERN (s : String) : Bool := reMatchDollar dateCore s

/-- URI_PATTERN of FormatDetector. -/
def FormatDetector.URI_PATTERN (s : String) : Bool := reMatchDollar uriCore s

/-- IPV4_PATTERN of FormatDetector. -/
def FormatDetector.IPV4_PATTERN (s : String) : Bool := reMatchDollar ipv4Core s

/-- The string-argument body of FormatDetector.detect_format: after the
falsy guard (the empty string yields None before any pattern test), the
six patterns are tried in the fixed source order and the first match
wins. -/
def FormatDetector.detectStr (value : String) : Option String :=
  if value = "" then Option.none
  else if FormatDetector.EMAIL_PATTERN value then some "email"
  else if FormatDetector.UUID_PATTERN value then some "uuid"
  else if FormatDetector.DATETIME_PATTERN value then some "date-time"
  else if FormatDetector.DATE_PATTERN value then some "date"
  else if FormatDetector.URI_PATTERN value then some "uri"
  else if FormatDetector.IPV4_PATTERN value then some "ipv4"
  else Option.none

/-- FormatDetector.detect_format on an arbitrary runtime value: the
guard (not isinstance(value, str)) returns None for every non-string
before any pattern is consulted; strings go through detectStr, whose own
guard handles the empty string. -/
def FormatDetector.detect_format (value : PyValue) : Option String :=
  match value with
  | .str s => FormatDetector.detectStr s
  | _ => Option.none

/-- The ordered pattern table of FormatDetector: tag and predicate, in
the precedence order of the source. -/
def formatPatterns : List (String × (String → Bool)) :=
  [("email", FormatDetector.EMAIL_PATTERN),
   ("uuid", FormatDetector.UUID_PATTERN),
   ("date-time", FormatDetector.DATETIME_PATTERN),
   ("date", FormatDetector.DATE_PATTERN),
   ("uri", FormatDetector.URI_PATTERN),
   ("ipv4", FormatDetector.IPV4_PATTERN)]

/-- Numeric value of a run of ASCII digits. -/
def digitsToNat (cs : List Char) : Nat :=
  cs.foldl (fun acc c => acc * 10 + (c.toNat - 48)) 0

/-- Gregorian leap year, as datetime uses it. -/
def isLeapYear (y : Nat) : Bool :=
  (y % 4 = 0 && y % 100 ≠ 0) || y % 400 = 0

/-- Days in a month, as datetime validates day-of-month. -/
def daysInMonth (y m : Nat) : Nat :=
  if m = 2 then (if isLeapYear y then 29 else 28)
  else if m = 4 || m = 6 || m = 9 || m = 11 then 30
  else 31

/-- Whether a character-list chunk is exactly n ASCII digits. -/
def isDigits (n : Nat) (cs : List Char) : Bool :=
  cs.length = n && cs.all isAsciiDigit

/-- Valid calendar date from three canonically padded components, as the
datetime constructor checks them. -/
def validDate (y m d : List Char) : Bool :=
  isDigits 4 y && isDigits 2 m && isDigits 2 d &&
    (let mv := digitsToNat m
     let dv := digitsToNat d
     1 ≤ digitsToNat y && 1 ≤ mv && mv ≤ 12 && 1 ≤ dv && dv ≤ daysInMonth (digitsToNat y) mv)

/-- Valid time-of-day components, as strptime validates them (hours
0-23, minutes 0-59, seconds up to 61 for leap seconds in the pattern,
but the datetime constructor then requires seconds 0-59). -/
def validTime (h mi s : List Char) : Bool :=
  isDigits 2 h && isDigits 2 mi && isDigits 2 s &&
    digitsToNat h ≤ 23 && digitsToNat mi ≤ 59 && digitsToNat s ≤ 59

/-- Valid percent-z timezone suffix: the literal Z, or a sign followed by
two hour digits, an optional colon, and two minute digits, with the
resulting offset under 24 hours (models the strptime percent-z directive
of Python at canonical widths). -/
def validTzSuffix (cs : List Char) : Bool :=
  match cs with
  | ['Z'] => true
  | [sgn, h1, h2, m1, m2] =>
    (sgn = '+' || sgn = '-') && isDigits 2 [h1, h2] && isDigits 2 [m1, m2] &&
      digitsToNat [h1, h2] * 60 + digitsToNat [m1, m2] < 1440
  | [sgn, h1, h2, ':', m1, m2] =>
    (sgn = '+' || sgn = '-') && isDigits 2 [h1, h2] && isDigits 2 [m1, m2] &&
      digitsToNat [h1, h2] * 60 + digitsToNat [m1, m2] < 1440
  | _ => false

/-- Models datetime.strptime(value, percent Y-m-dTH:M:S z) succeeding:
a full RFC-3339-like timestamp with a timezone (canonical two-digit
widths; the strptime latitude for unpadded fields is not exercised by
the repository or the claims). -/
def strptimeDateTimeTz (value : String) : Bool :=
  let cs := value.data
  match cs.take 4, cs.drop 4 with
  | y, '-' :: rest1 =>
    (match rest1.take 2, rest1.drop 2 with
     | m, '-' :: rest2 =>
       (match rest2.take 2, rest2.drop 2 with
        | d, 'T' :: rest3 =>
          (match rest3.take 2, rest3.drop 2 with
           | h, ':' :: rest4 =>
             (match rest4.take 2, rest4.drop 2 with
              | mi, ':' :: rest5 =>
                (match rest5.take 2, rest5.drop 2 with
                 | s, tz => validDate y m d && validTime h mi s && validTzSuffix tz)
              | _, _ => false)
           | _, _ => false)
        | _, _ => false)
     | _, _ => false)
  | _, _ => false

/-- Models datetime.strptime(value, percent Y-m-dTH:M:S followed by the
literal Z) succeeding. -/
def strptimeDateTimeZ (value : String) : Bool :=
  let cs := value.data
  match cs.take 4, cs.drop 4 with
  | y, '-' :: rest1 =>
    (match rest1.take 2, rest1.drop 2 with
     | m, '-' :: rest2 =>
       (match rest2.take 2, rest2.drop 2 with
        | d, 'T' :: rest3 =>
          (match rest3.take 2, rest3.drop 2 with
           | h, ':' :: rest4 =>
             (match rest4.take 2, rest4.drop 2 with
              | mi, ':' :: rest5 =>
                (match rest5.take 2, rest5.drop 2 with
                 | s, ['Z'] => validDate y m d && validTime h mi s
                 | _, _ => false)
              | _, _ => false)
           | _, _ => false)
        | _, _ => false)
     | _, _ => false)
  | _, _ => false

/-- Models datetime.strptime(value, percent Y-m-d) succeeding: a valid
calendar date at canonical widths. -/
def strptimeDate (value : String) : Bool :=
  let cs := value.data
  match cs.take 4, cs.drop 4 with
  | y, '-' :: rest1 =>
    (match rest1.take 2, rest1.drop 2 with
     | m, '-' :: d => validDate y m d
     | _, _ => false)
  | _, _ => false

/-- Character class of the email pattern of schema_utils: any character
except the at sign and whitespace. -/
def suEmailChar (c : Char) : Bool :=
  c ≠ '@' && !isReSpace c

/-- Body of the schema_utils email pattern: one or more non-at
non-space, at, one or more, literal dot, one or more. -/
def suEmailCore (cs : List Char) : Bool :=
  match splitOnChar '@' cs with
  | [loc, dom] =>
    !loc.isEmpty && loc.all suEmailChar &&
      (List.range dom.length).any (fun i =>
        dom.get? i = some '.' && 1 ≤ i && (dom.take i).all suEmailChar &&
          (let tail := dom.drop (i + 1)
           !tail.isEmpty && tail.all suEmailChar))
  | _ => false

/-- Valid URL scheme characters after the first, as urlparse accepts
them. -/
def schemeChar (c : Char) : Bool :=
  isAsciiAlpha c || isAsciiDigit c || c = '+' || c = '-' || c = '.'

/-- Models urlparse(value).scheme in (http, https) and a non-empty
netloc: a valid scheme before the first colon, lowercased to http or
https, followed by two slashes and a non-empty authority ending at the
next slash, question mark or hash. -/
def urlparseHttpCheck (value : String) : Bool :=
  let cs := value.data
  let pre := cs.takeWhile (fun c => c ≠ ':')
  if pre.length = cs.length then false
  else
    let post := cs.drop (pre.length + 1)
    let lowerScheme := pre.map Char.toLower
    (match pre with
     | [] => false
     | c0 :: restc => isAsciiAlpha c0 && restc.all schemeChar) &&
    (lowerScheme = "http".data || lowerScheme = "https".data) &&
    (match post with
     | '/' :: '/' :: after =>
       !(after.takeWhile (fun c => c ≠ '/' && c ≠ '?' && c ≠ '#')).isEmpty
     | _ => false)

/-- One octet as ipaddress.IPv4Address accepts it: one to three ASCII
digits, no leading zero (except the single digit 0), value at most
255. -/
def strictIpv4Octet (p : List Char) : Bool :=
  !p.isEmpty && p.length ≤ 3 && p.all isAsciiDigit &&
    (p.length = 1 || p.head? ≠ some '0') && digitsToNat p ≤ 255

/-- Models ipaddress.ip_address(value) yielding an IPv4Address: a strict
dotted quad (anything else either raises or yields an IPv6 address, and
in both cases the source does not return ipv4). -/
def ipAddressIsV4 (value : String) : Bool :=
  match splitOnChar '.' value.data with
  | [a, b, c, d] => strictIpv4Octet a && strictIpv4Octet b && strictIpv4Octet c && strictIpv4Octet d
  | _ => false

/-- The _detect_format function of schema_utils.py: date-time by
strptime with a timezone offset (which itself accepts a trailing Z), or
the explicit literal-Z fallback branch; then ISO date; then the loose
email regex; then an http or https URL with a netloc via urlparse; then
IPv4 via ipaddress; otherwise None.  The strptime, urlparse and
ipaddress helpers above model the Python standard library calls the
source makes; no claim in this development depends on their corner
behaviour. -/
def detect_format (value : String) : Option String :=
  if strptimeDateTimeTz value then some "date-time"
  else if value.endsWith "Z" && strptimeDateTimeZ value then some "date-time"
  else if strptimeDate value then some "date"
  else if reMatchDollar suEmailCore value then some "email"
  else if urlparseHttpCheck value then some "uri"
  else if ipAddressIsV4 value then some "ipv4"
  else Option.none

/-- Fuelled embedding of gen_schema of schema_utils.py.  Mirrors the
source: the type name is classified first (so an unsupported value
raises before anything else and the error propagates unchanged through
every recursive call); objects collect child schemas per key and list
every key of this single observation as required; non-empty arrays
generate a schema per element and left-fold _merge_schemas over them,
empty arrays yield a bare array schema with no items; strings get the
detected format when one is found; other kinds yield a bare schema. -/
def gen_schemaF : Nat → PyValue → Except SchemaError RawSchema
  | 0, _ => .error (.unsupportedType "fuel exhausted")
  | fuel + 1, data => do
    let type_name ← get_type_name data
    match data with
    | .obj entries => do
      let kvs := entries.toList
      let props ← kvs.mapM (fun kv => do
        let s ← gen_schemaF fuel kv.2
        pure (kv.1, s))
      pure (RawSchema.make [type_name] (some props) Option.none (some (kvs.map Prod.fst)) Option.none)
    | .arr elems =>
      let xs := elems.toList
      if xs.isEmpty then
        pure (RawSchema.make [type_name] Option.none Option.none Option.none Option.none)
      else do
        let item_schemas ← xs.mapM (gen_schemaF fuel)
        match item_schemas with
        | [] => pure (RawSchema.make [type_name] Option.none Option.none Option.none Option.none)
        | s0 :: rest =>
          pure (RawSchema.make [type_name] Option.none (some [rest.foldl merge_schemas s0])
            Option.none Option.none)
    | .str s =>
      pure (RawSchema.make [type_name] Option.none Option.none Option.none (detect_format s))
    | _ =>
      pure (RawSchema.make [type_name] Option.none Option.none Option.none Option.none)

/-- gen_schema of schema_utils.py: the fuel strictly exceeds the depth of
the value, which bounds the recursion depth of the Python function. -/
def gen_schema (data : PyValue) : Except SchemaError RawSchema :=
  gen_schemaF (data.size + 1) data

/-- The type keyword value emitted by to_json_schema: a single kind name
when type_names has exactly one element, otherwise the list itself. -/
inductive TypeKeyword where
  | single (name : String)
  | names (l : List String)
deriving DecidableEq, Repr

/-- The JSON Schema document produced by to_json_schema, with one field
per keyword the serializer can emit; a None field is an omitted
keyword. -/
inductive JsonSchemaDoc where
  | mk (type : TypeKeyword) (format : Option String)
       (properties : Option (List (String × JsonSchemaDoc)))
       (additionalProperties : Option Bool)
       (required : Option (List String))
       (items : Option JsonSchemaDoc)

/-- Keyword accessor: type. -/
def JsonSchemaDoc.type : JsonSchemaDoc → TypeKeyword
  | .mk t _ _ _ _ _ => t

/-- Keyword accessor: format. -/
def JsonSchemaDoc.format : JsonSchemaDoc → Option String
  | .mk _ f _ _ _ _ => f

/-- Keyword accessor: properties. -/
def JsonSchemaDoc.properties : JsonSchemaDoc → Option (List (String × JsonSchemaDoc))
  | .mk _ _ p _ _ _ => p

/-- Keyword accessor: additionalProperties. -/
def JsonSchemaDoc.additionalProperties : JsonSchemaDoc → Option Bool
  | .mk _ _ _ a _ _ => a

/-- Keyword accessor: required. -/
def JsonSchemaDoc.required : JsonSchemaDoc → Option (List String)
  | .mk _ _ _ _ r _ => r

/-- Keyword accessor: items. -/
def JsonSchemaDoc.items : JsonSchemaDoc → Option JsonSchemaDoc
  | .mk _ _ _ _ _ i => i

/-- Fuelled embedding of to_json_schema of schema_utils.py.  Mirrors the
source: type is the single kind when there is exactly one name and the
whole list otherwise; format is emitted when truthy (present and
non-empty); when properties is truthy (present and non-empty) the
children are serialized, additionalProperties false is emitted, and
required is emitted when truthy; when items is truthy its first element
is serialized. -/
def to_json_schemaF : Nat → RawSchema → JsonSchemaDoc
  | 0, _ => JsonSchemaDoc.mk (TypeKeyword.names []) Option.none Option.none Option.none
      Option.none Option.none
  | fuel + 1, raw =>
    let typeK :=
      match raw.type_names with
      | [t] => TypeKeyword.single t
      | l => TypeKeyword.names l
    let formatK :=
      match raw.format with
      | some f => if f = "" then Option.none else some f
      | Option.none => Option.none
    let (propsK, addK, reqK) :=
      match raw.properties with
      | some l =>
        if l.isEmpty then (Option.none, Option.none, Option.none)
        else
          (some (l.map (fun kv => (kv.1, to_json_schemaF fuel kv.2))),
           some false,
           match raw.required with
           | some rl => if rl.isEmpty then Option.none else some rl
           | Option.none => Option.none)
      | Option.none => (Option.none, Option.none, Option.none)
    let itemsK :=
      match raw.items with
      | some (x :: _) => some (to_json_schemaF fuel x)
      | _ => Option.none
    JsonSchemaDoc.mk typeK formatK propsK addK reqK itemsK

/-- to_json_schema of schema_utils.py, at ample fuel. -/
def to_json_schema (raw : RawSchema) : JsonSchemaDoc :=
  to_json_schemaF (raw.size + 1) raw

/-- Modelled from the spec: the type keyword test of the external
jsonschema validator on the kind names this pipeline emits.  In JSON
Schema, integer instances also satisfy type number. -/
def typeMatches (t : String) (v : PyValue) : Bool :=
  match v with
  | .null => t = "null"
  | .bool _ => t = "boolean"
  | .int _ => t = "integer" || t = "number"
  | .num _ => t = "number"
  | .str _ => t = "string"
  | .arr _ => t = "array"
  | .obj _ => t = "object"
  | .other _ => false

/-- Modelled from the spec: the external jsonschema validator on the
keyword subset this serializer emits (type, properties,
additionalProperties, required, items; format is an annotation and is
not asserted, which is both the default of the library and the stance of
the spec).  Standard JSON Schema semantics: type must list the instance
kind; for objects, every required key must be present, listed properties
validate the corresponding members, and additionalProperties false
forbids members outside properties; for arrays, every element validates
against items; keywords for other kinds are ignored. -/
def validateF : Nat → JsonSchemaDoc → PyValue → Bool
  | 0, _, _ => false
  | fuel + 1, doc, v =>
    let typeOk :=
      match doc.type with
      | .single t => typeMatches t v
      | .names ts => ts.any (fun t => typeMatches t v)
    typeOk &&
      (match v with
       | .obj entries =>
         let kvs := entries.toList
         (doc.required.getD []).all (fun k => kvs.any (fun kv => kv.1 = k)) &&
           kvs.all (fun kv =>
             match (doc.properties.getD []).lookup kv.1 with
             | some child => validateF fuel child kv.2
             | Option.none => !(doc.additionalProperties = some false))
       | .arr elems =>
         (match doc.items with
          | some child => elems.toList.all (validateF fuel child)
          | Option.none => true)
       | _ => true)

/-- Validation of a value against a serialized schema document,
modelled from the spec (see validateF). -/
def validate (doc : JsonSchemaDoc) (v : PyValue) : Bool :=
  validateF (v.size + 1) doc v

/-- The per-path format cache of JsonToSchemaConverter._process for one
path: every observed string at the path is run through the detector and
only detected formats enter the set (modelled as a first-occurrence
deduplicated list). -/
def collectedFormats (obs : List String) : List String :=
  dedupFirst (obs.filterMap FormatDetector.detectStr)

/-- The format keyword injected by
JsonToSchemaConverter._inject_annotations at a string-typed node for one
path: emitted exactly when the detected set is a singleton (if
detected_set and len(detected_set) == 1), in modes on and safe. -/
def injectedFormat (obs : List String) : Option String :=
  match collectedFormats obs with
  | [f] => some f
  | _ => Option.none

/-- The schema inferred for an integer leaf. -/
def intSchema : RawSchema :=
  RawSchema.make ["integer"] Option.none Option.none Option.none Option.none

/-- The schema inferred for a string leaf with no detected format. -/
def strSchema : RawSchema :=
  RawSchema.make ["string"] Option.none Option.none Option.none Option.none

/-- The value {"a": 1}. -/
def exValA : PyValue := .obj (.cons "a" (.int 1) .nil)

/-- The empty mapping {}. -/
def exValEmpty : PyValue := .obj .nil

/-- The value {"x": 1}. -/
def exValX : PyValue := .obj (.cons "x" (.int 1) .nil)

/-- gen_schema of {"a": 1}: object, property a integer, required [a]. -/
def exSchemaA : RawSchema :=
  RawSchema.make ["object"] (some [("a", intSchema)]) Option.none (some ["a"]) Option.none

/-- gen_schema of {}: object, empty properties, empty required list. -/
def exSchemaEmpty : RawSchema :=
  RawSchema.make ["object"] (some []) Option.none (some []) Option.none

/-- gen_schema of {"x": 1}. -/
def exSchemaX : RawSchema :=
  RawSchema.make ["object"] (some [("x", intSchema)]) Option.none (some ["x"]) Option.none

/-- gen_schema of null. -/
def exSchemaNull : RawSchema :=
  RawSchema.make ["null"] Option.none Option.none Option.none Option.none

/-- The schema accumulated from observing {"a": 1} and then {}: property
a present, required dropped to None by the merge. -/
def exAccum : RawSchema := merge_schemas exSchemaA exSchemaEmpty

/-- The value [{}, {"a": 1}, {"a": 1}]. -/
def exValBad : PyValue := .arr (.cons exValEmpty (.cons exValA (.cons exValA .nil)))

/-- The schema gen_schema infers for [{}, {"a": 1}, {"a": 1}]: an array
whose unified element schema requires a, although the first element has
no a. -/
def exRawBad : RawSchema :=
  RawSchema.make ["array"] Option.none
    (some [RawSchema.make ["object"] (some [("a", intSchema)]) Option.none (some ["a"]) Option.none])
    Option.none Option.none

/-- An object schema used to witness the serializer claims. -/
def exSerObj : RawSchema :=
  RawSchema.make ["object"] (some [("name", strSchema)]) Option.none (some ["name"]) Option.none

/-- A union-typed schema used to witness the serializer claims. -/
def exSerUnion : RawSchema :=
  RawSchema.make ["integer", "null"] Option.none Option.none Option.none Option.none

theorem mem_dedupFirstGo (x : String) (l : List String) : ∀ (seen : List String),
    x ∈ dedupFirstGo seen l ↔ x ∈ l ∧ x ∉ seen := by
  induction l with
  | nil => intro seen; simp [dedupFirstGo]
  | cons y ys ih =>
    intro seen
    by_cases hy : y ∈ seen
    · rw [show dedupFirstGo seen (y :: ys) = dedupFirstGo seen ys from by simp [dedupFirstGo, hy]]
      rw [ih seen]
      constructor
      · rintro ⟨h1, h2⟩
        exact ⟨List.mem_cons_of_mem y h1, h2⟩
      · rintro ⟨h1, h2⟩
        rcases List.mem_cons.mp h1 with h | h
        · exact absurd (h ▸ hy) h2
        · exact ⟨h, h2⟩
    · rw [show dedupFirstGo seen (y :: ys) = y :: dedupFirstGo (y :: seen) ys from by
        simp [dedupFirstGo, hy]]
      constructor
      · intro h
        rcases List.mem_cons.mp h with h | h
        · subst h; exact ⟨List.mem_cons_self x ys, hy⟩
        · rcases (ih (y :: seen)).mp h with ⟨h1, h2⟩
          exact ⟨List.mem_cons_of_mem y h1, fun hs => h2 (List.mem_cons_of_mem y hs)⟩
      · rintro ⟨h1, h2⟩
        rcases List.mem_cons.mp h1 with h | h
        · subst h; exact List.mem_cons_self x _
        · by_cases hxy : x = y
          · subst hxy; exact List.mem_cons_self x _
          · refine List.mem_cons_of_mem y ((ih (y :: seen)).mpr ⟨h, ?_⟩)
            intro hs
            rcases List.mem_cons.mp hs with h3 | h3
            · exact hxy h3
            · exact h2 h3

theorem mem_dedupFirst (x : String) (l : List String) :
    x ∈ dedupFirst l ↔ x ∈ l := by
  simp [dedupFirst, mem_dedupFirstGo x l []]

theorem mem_insertSorted (x y : String) (l : List String) :
    x ∈ insertSorted y l ↔ x = y ∨ x ∈ l := by
  induction l with
  | nil => simp [insertSorted]
  | cons z zs ih =>
    simp only [insertSorted]
    split
    · simp [List.mem_cons]
    · simp only [List.mem_cons, ih]
      tauto

theorem mem_sortStrings (x : String) (l : List String) :
    x ∈ sortStrings l ↔ x ∈ l := by
  induction l with
  | nil => simp [sortStrings]
  | cons y ys ih => simp [sortStrings, mem_insertSorted, ih]

theorem dictGet_isSome (k : String) (l : List (String × RawSchema)) :
    (dictGet k l).isSome = true ↔ k ∈ l.map Prod.fst := by
  induction l with
  | nil => simp [dictGet]
  | cons kv rest ih =>
    obtain ⟨k2, v⟩ := kv
    by_cases hk : k2 = k
    · subst hk
      simp [dictGet]
    · simp only [dictGet, if_neg hk, List.map_cons, List.mem_cons, ih]
      constructor
      · exact Or.inr
      · rintro (h | h)
        · exact absurd h.symm hk
        · exact h

theorem propList_toList_ofList (l : List (String × RawSchema)) :
    (PropList.ofList l).toList = l := by
  induction l with
  | nil => rfl
  | cons kv tl ih =>
    obtain ⟨k, v⟩ := kv
    simp [PropList.ofList, PropList.toList, ih]

theorem itemList_toList_ofList (l : List RawSchema) :
    (ItemList.ofList l).toList = l := by
  induction l with
  | nil => rfl
  | cons v tl ih => simp [ItemList.ofList, ItemList.toList, ih]

theorem RawSchema.make_type_names (tn props items req fmt) :
    (RawSchema.make tn props items req fmt).type_names = tn := rfl

theorem RawSchema.make_properties (tn props items req fmt) :
    (RawSchema.make tn props items req fmt).properties = props := by
  cases props with
  | none => rfl
  | some l =>
    simp [RawSchema.make, RawSchema.properties, PropsField.ofOpt, PropsField.toOpt,
      propList_toList_ofList]

theorem RawSchema.make_items (tn props items req fmt) :
    (RawSchema.make tn props items req fmt).items = items := by
  cases items with
  | none => rfl
  | some l =>
    simp [RawSchema.make, RawSchema.items, ItemsField.ofOpt, ItemsField.toOpt,
      itemList_toList_ofList]

theorem RawSchema.make_required (tn props items req fmt) :
    (RawSchema.make tn props items req fmt).required = req := rfl

theorem RawSchema.make_format (tn props items req fmt) :
    (RawSchema.make tn props items req fmt).format = fmt := rfl

theorem merge_schemas_type_names (a b : RawSchema) :
    (merge_schemas a b).type_names = dedupFirst (a.type_names ++ b.type_names) := by
  simp only [merge_schemas, merge_schemasF, RawSchema.make_type_names]

theorem merge_schemas_required (a b : RawSchema) :
    (merge_schemas a b).required =
      (if "object" ∈ dedupFirst (a.type_names ++ b.type_names) then
        (if (mergeRequiredList a b).isEmpty then Option.none else some (mergeRequiredList a b))
      else Option.none) := by
  simp only [merge_schemas, merge_schemasF, RawSchema.make_required]

theorem merge_schemas_propKeys (a b : RawSchema)
    (h : "object" ∈ dedupFirst (a.type_names ++ b.type_names)) :
    (merge_schemas a b).propKeys =
      dedupFirst ((a.properties.getD []).map Prod.fst ++ (b.properties.getD []).map Prod.fst) := by
  simp only [RawSchema.propKeys, merge_schemas, merge_schemasF, RawSchema.make_properties,
    if_pos h, Option.getD_some, List.map_map]
  refine Eq.trans (List.map_congr_left fun k _ => ?_) (List.map_id _)
  simp only [Function.comp_apply, id_eq]
  cases dictGet k (a.properties.getD []) <;> cases dictGet k (b.properties.getD []) <;> rfl

theorem mem_mergeRequiredList (k : String) (a b : RawSchema) :
    k ∈ mergeRequiredList a b ↔ k ∈ a.propKeys ∧ k ∈ b.propKeys := by
  simp only [mergeRequiredList, mem_sortStrings, List.mem_filter, mem_dedupFirst,
    List.mem_append, Bool.and_eq_true, dictGet_isSome, RawSchema.propKeys]
  tauto

/-- C2: for every pair of schemas whose merge contains the object kind,
the required set of the merge is exactly the set of property keys
present in both operands, and the merged property keys are the union of
both operands (a key present in only one operand is carried but not
required). -/
theorem c2_merge_required_exact (a b : RawSchema)
    (h : "object" ∈ (merge_schemas a b).type_names) :
    (∀ k, k ∈ (merge_schemas a b).requiredKeys ↔ k ∈ a.propKeys ∧ k ∈ b.propKeys) ∧
    (∀ k, k ∈ (merge_schemas a b).propKeys ↔ k ∈ a.propKeys ∨ k ∈ b.propKeys) := by
  rw [merge_schemas_type_names] at h
  constructor
  · intro k
    simp only [RawSchema.requiredKeys, merge_schemas_required, if_pos h]
    by_cases he : (mergeRequiredList a b).isEmpty
    · rw [if_pos he]
      simp only [Option.getD_none, List.not_mem_nil, false_iff]
      rintro ⟨h1, h2⟩
      have hm := (mem_mergeRequiredList k a b).mpr ⟨h1, h2⟩
      rw [List.isEmpty_iff] at he
      rw [he] at hm
      exact absurd hm (List.not_mem_nil k)
    · rw [if_neg he, Option.getD_some]
      exact mem_mergeRequiredList k a b
  · intro k
    rw [merge_schemas_propKeys a b h]
    simp only [mem_dedupFirst, List.mem_append, RawSchema.propKeys]

/-- Witness for c2_merge_required_exact: merging the inferred schemas of
the mapping with key a and the empty mapping leaves a carried but not
required, and the serialized document omits the required keyword. -/
theorem c2_witness :
    gen_schema exValA = .ok exSchemaA ∧ gen_schema exValEmpty = .ok exSchemaEmpty ∧
    "a" ∉ (merge_schemas exSchemaA exSchemaEmpty).requiredKeys ∧
    "a" ∈ (merge_schemas exSchemaA exSchemaEmpty).propKeys ∧
    (to_json_schema (merge_schemas exSchemaA exSchemaEmpty)).required = Option.none := by
  refine ⟨rfl, rfl, ?_, ?_, by decide⟩
  · intro hm
    have h2 := ((c2_merge_required_exact exSchemaA exSchemaEmpty (by decide)).1 "a").mp hm
    exact absurd h2.2 (by decide)
  · exact ((c2_merge_required_exact exSchemaA exSchemaEmpty (by decide)).2 "a").mpr
      (Or.inl (by decide))

/-- C1 (divergence witnessed on the code): the pairwise merge is not
associative, so a left-fold over observations is not order-independent.
With a = b = gen_schema of the mapping with key x and c = gen_schema of
null, merging (a + b) + c drops x from required while a + (b + c) keeps
it; the two results differ as required sets, so they are not structurally
equal even ignoring insertion order. -/
theorem c1_merge_not_associative :
    gen_schema exValX = .ok exSchemaX ∧ gen_schema PyValue.null = .ok exSchemaNull ∧
    (merge_schemas (merge_schemas exSchemaX exSchemaX) exSchemaNull).requiredKeys = [] ∧
    (merge_schemas exSchemaX (merge_schemas exSchemaX exSchemaNull)).requiredKeys = ["x"] :=
  ⟨rfl, rfl, by decide, by decide⟩

/-- C5 (divergence witnessed on the code): merging a new observation can
re-add a required key.  The accumulated schema of observations {"a": 1}
then {} has an empty required set, but merging in the fresh observation
{"a": 1} makes a required again, because the code recomputes required
from property presence in both operands rather than intersecting
required sets. -/
theorem c5_required_not_monotonic :
    gen_schema exValA = .ok exSchemaA ∧ gen_schema exValEmpty = .ok exSchemaEmpty ∧
    exAccum = merge_schemas exSchemaA exSchemaEmpty ∧
    exAccum.requiredKeys = [] ∧
    (merge_schemas exAccum exSchemaA).requiredKeys = ["a"] :=
  ⟨rfl, rfl, rfl, by decide, by decide⟩

/-- C6 (divergence witnessed on the code): the merge is not idempotent.
For the reachable accumulated schema of observations {"a": 1} then {},
required is absent, but merging the schema with itself yields required
[a]: the required components differ as sets, so merge(a, a) is not
structurally equal to a even ignoring insertion order. -/
theorem c6_merge_not_idempotent :
    exAccum.required = Option.none ∧
    (merge_schemas exAccum exAccum).required = some ["a"] ∧
    (merge_schemas exAccum exAccum).propKeys = exAccum.propKeys ∧
    (merge_schemas exAccum exAccum).type_names = exAccum.type_names :=
  ⟨by decide, by decide, by decide, by decide⟩

/-- C3 (divergence witnessed on the code): the round trip fails.  For
v = [{}, {"a": 1}, {"a": 1}], gen_schema unifies the array elements into
an object schema that requires a (the last two observations both carry
a), so the first element {} fails the required check of the serialized
document and v does not validate against serialize(infer(v)). -/
theorem c3_round_trip_fails :
    gen_schema exValBad = .ok exRawBad ∧
    ((to_json_schema exRawBad).items.map JsonSchemaDoc.required) = some (some ["a"]) ∧
    validate (to_json_schema exRawBad) exValBad = false :=
  ⟨rfl, by decide, by decide⟩

/-- C9: for every value whose runtime type is outside the closed kind
set (the other constructor, for example a function), the type classifier
raises immediately and gen_schema propagates the same error unchanged,
producing no schema. -/
theorem c9_unsupported_type (t : String) :
    get_type_name (PyValue.other t) = .error (.unsupportedType t) ∧
    gen_schema (PyValue.other t) = .error (.unsupportedType t) :=
  ⟨rfl, rfl⟩

/-- C10: the falsy and type guard of FormatDetector.detect_format runs
before all pattern tests: the empty string yields None, and every
non-string value yields None. -/
theorem c10_guard :
    FormatDetector.detectStr "" = Option.none ∧
    ∀ v : PyValue, v.isStr = false → FormatDetector.detect_format v = Option.none := by
  refine ⟨rfl, ?_⟩
  intro v h
  cases v <;> simp_all [FormatDetector.detect_format, PyValue.isStr]

/-- Witness for c10_guard at the concrete non-string null. -/
theorem c10_witness :
    PyValue.isStr PyValue.null = false ∧
    FormatDetector.detect_format PyValue.null = Option.none :=
  ⟨by decide, c10_guard.2 PyValue.null (by decide)⟩

/-- C7: detect_format tries the six patterns in the fixed precedence
order of formatPatterns and returns the tag of the first pattern that
matches, None when none match (it is a total function, hence pure,
deterministic and never failing); the four concrete examples evaluate as
specified. -/
theorem c7_detect_format_order :
    (∀ s, FormatDetector.detectStr s = (formatPatterns.find? (fun p => p.2 s)).map Prod.fst) ∧
    FormatDetector.detectStr "john@example.com" = some "email" ∧
    FormatDetector.detectStr "2024-12-31T23:59:59Z" = some "date-time" ∧
    FormatDetector.detectStr "192.168.0.1" = some "ipv4" ∧
    FormatDetector.detectStr "not-a-format" = Option.none := by
  refine ⟨?_, by decide, by decide, by decide, by decide⟩
  intro s
  by_cases hs : s = ""
  · subst hs; decide
  · simp only [FormatDetector.detectStr, if_neg hs, formatPatterns]
    cases h1 : FormatDetector.EMAIL_PATTERN s <;>
    cases h2 : FormatDetector.UUID_PATTERN s <;>
    cases h3 : FormatDetector.DATETIME_PATTERN s <;>
    cases h4 : FormatDetector.DATE_PATTERN s <;>
    cases h5 : FormatDetector.URI_PATTERN s <;>
    cases h6 : FormatDetector.IPV4_PATTERN s <;>
      simp [List.find?, h1, h2, h3, h4, h5, h6]

/-- C8: the serializer renders type as the single kind name exactly when
there is one kind and as the list otherwise; every node that emits
properties also emits additionalProperties false; and required is
emitted only non-empty. -/
theorem c8_serializer_keywords (raw : RawSchema) :
    (∀ t, raw.type_names = [t] → (to_json_schema raw).type = TypeKeyword.single t) ∧
    (raw.type_names.length ≠ 1 → (to_json_schema raw).type = TypeKeyword.names raw.type_names) ∧
    ((to_json_schema raw).properties.isSome = true →
      (to_json_schema raw).additionalProperties = some false) ∧
    (∀ l, (to_json_schema raw).required = some l → l ≠ []) := by
  cases raw with
  | mk tn p i r f =>
    simp only [to_json_schema, to_json_schemaF, RawSchema.type_names]
    refine ⟨?_, ?_, ?_, ?_⟩
    · intro t ht
      subst ht
      rfl
    · intro hlen
      match tn with
      | [] => rfl
      | [t] => exact absurd rfl hlen
      | t1 :: t2 :: rest => rfl
    · intro hp
      cases hprop : RawSchema.properties (RawSchema.mk tn p i r f) with
      | none => simp [JsonSchemaDoc.properties, JsonSchemaDoc.additionalProperties, hprop] at hp ⊢
      | some l =>
        by_cases hl : l.isEmpty <;>
          simp_all [JsonSchemaDoc.properties, JsonSchemaDoc.additionalProperties, hprop]
    · intro l hl
      cases hprop : RawSchema.properties (RawSchema.mk tn p i r f) with
      | none => simp [JsonSchemaDoc.required, hprop] at hl
      | some pl =>
        by_cases hpl : pl.isEmpty
        · simp [JsonSchemaDoc.required, hprop, hpl] at hl
        · cases hr : RawSchema.required (RawSchema.mk tn p i r f) with
          | none => simp [JsonSchemaDoc.required, hprop, hpl, hr] at hl
          | some rl =>
            by_cases hrl : rl.isEmpty
            · simp [JsonSchemaDoc.required, hprop, hpl, hr, hrl] at hl
            · have hrleq : rl = l := by
                simpa [JsonSchemaDoc.required, hprop, hpl, hr, hrl] using hl
              intro hnil
              exact hrl (by rw [List.isEmpty_iff, hrleq, hnil])

/-- Witness for c8_serializer_keywords at concrete schemas: a one-kind
object schema serializes type as the single name, a two-kind schema as
the list, properties comes with additionalProperties false, and the
emitted required list is non-empty. -/
theorem c8_witness :
    (to_json_schema exSerObj).type = TypeKeyword.single "object" ∧
    (to_json_schema exSerUnion).type = TypeKeyword.names ["integer", "null"] ∧
    (to_json_schema exSerObj).additionalProperties = some false ∧
    ("name" :: []) ≠ ([] : List String) :=
  ⟨(c8_serializer_keywords exSerObj).1 "object" (by decide),
   (c8_serializer_keywords exSerUnion).2.1 (by decide),
   (c8_serializer_keywords exSerObj).2.2.1 (by decide),
   (c8_serializer_keywords exSerObj).2.2.2 ["name"] (by decide)⟩

/-- C4 (counterexample): a path observing one email-formatted string and
one string matching no pattern still gets format email in the serialized
schema, because only detected formats enter the per-path set; the claim
as stated says such a path omits format. -/
theorem c4_counterexample :
    injectedFormat ["john@example.com", "not-a-format"] = some "email" ∧
    FormatDetector.detectStr "not-a-format" = Option.none :=
  ⟨by decide, by decide⟩

theorem dedupFirstGo_eq_nil (seen l : List String) :
    dedupFirstGo seen l = [] ↔ ∀ y ∈ l, y ∈ seen := by
  induction l generalizing seen with
  | nil => simp [dedupFirstGo]
  | cons y ys ih =>
    by_cases hy : y ∈ seen
    · rw [show dedupFirstGo seen (y :: ys) = dedupFirstGo seen ys from by simp [dedupFirstGo, hy]]
      rw [ih seen]
      constructor
      · intro h z hz
        rcases List.mem_cons.mp hz with h2 | h2
        · exact h2 ▸ hy
        · exact h z h2
      · intro h z hz
        exact h z (List.mem_cons_of_mem y hz)
    · rw [show dedupFirstGo seen (y :: ys) = y :: dedupFirstGo (y :: seen) ys from by
        simp [dedupFirstGo, hy]]
      simp only [List.cons_ne_nil, false_iff]
      intro h
      exact hy (h y (List.mem_cons_self y ys))

theorem dedupFirst_eq_singleton (l : List String) (f : String) :
    dedupFirst l = [f] ↔ l ≠ [] ∧ ∀ x ∈ l, x = f := by
  cases l with
  | nil => simp [dedupFirst, dedupFirstGo]
  | cons x xs =>
    rw [show dedupFirst (x :: xs) = x :: dedupFirstGo [x] xs from by
      simp [dedupFirst, dedupFirstGo]]
    constructor
    · intro h
      have hx : x = f := by
        have := congrArg (fun l => l.head?) h
        simpa using this
      have htail : dedupFirstGo [x] xs = [] := by
        have := congrArg (fun l => l.tail) h
        simpa using this
      refine ⟨List.cons_ne_nil x xs, ?_⟩
      intro z hz
      rcases List.mem_cons.mp hz with h2 | h2
      · exact h2.trans hx
      · have := (dedupFirstGo_eq_nil [x] xs).mp htail z h2
        have hzx : z = x := by simpa using this
        exact hzx.trans hx
    · rintro ⟨-, hall⟩
      have hx : x = f := hall x (List.mem_cons_self x xs)
      subst hx
      have : dedupFirstGo [x] xs = [] := by
        rw [dedupFirstGo_eq_nil]
        intro y hy
        have := hall y (List.mem_cons_of_mem x hy)
        simp [this]
      rw [this]

/-- C4 (amended): the serialized format at a path is some f exactly when
at least one observed string at the path produced the detected format f
and every detected format at the path equals f; strings matching no
pattern are ignored by the cache rather than suppressing the format, and
two different detected formats still suppress it. -/
theorem c4_injected_format_iff (obs : List String) (f : String) :
    injectedFormat obs = some f ↔
      ((∃ s ∈ obs, FormatDetector.detectStr s = some f) ∧
       ∀ s ∈ obs, ∀ g, FormatDetector.detectStr s = some g → g = f) := by
  have hmatch : ∀ (L : List String),
      (match L with | [g] => some g | _ => Option.none) = some f ↔ L = [f] := by
    intro L
    match L with
    | [] => simp
    | [x] => simp
    | x :: y :: r => simp
  rw [show injectedFormat obs = (match collectedFormats obs with
        | [g] => some g | _ => Option.none) from rfl,
      hmatch, collectedFormats, dedupFirst_eq_singleton]
  constructor
  · rintro ⟨hne, hall⟩
    obtain ⟨x, hx⟩ := List.exists_mem_of_ne_nil _ hne
    obtain ⟨s, hs, hdet⟩ := List.mem_filterMap.mp hx
    have hxf := hall x hx
    subst hxf
    exact ⟨⟨s, hs, hdet⟩, fun s2 hs2 g hg => hall g (List.mem_filterMap.mpr ⟨s2, hs2, hg⟩)⟩
  · rintro ⟨⟨s, hs, hdet⟩, hall⟩
    constructor
    · intro hnil
      have hmem : f ∈ obs.filterMap FormatDetector.detectStr :=
        List.mem_filterMap.mpr ⟨s, hs, hdet⟩
      rw [hnil] at hmem
      exact absurd hmem (List.not_mem_nil f)
    · intro x hx
      obtain ⟨s2, hs2, hd2⟩ := List.mem_filterMap.mp hx
      exact hall s2 hs2 x hd2

/-- Witness for c4_injected_format_iff at a concrete observation list. -/
theorem c4_witness : injectedFormat ["john@example.com"] = some "email" :=
  (c4_injected_format_iff ["john@example.com"] "email").mpr
    ⟨⟨"john@example.com", by decide, by decide⟩,
     fun s hs g hg => by
      have hsx : s = "john@example.com" := by simpa using hs
      subst hsx
      rw [show FormatDetector.detectStr "john@example.com" = some "email" from by decide] at hg
      exact (Option.some.inj hg).symm⟩
